import Mathlib

/-!
Verification of the `github-repo-mirror` orchestration program (`src/main.go`).

The program enumerates the repositories of each configured source through a
paginated API, filters them by include/exclude lists, and for each
participating repository either mirror-clones it (when the local directory is
absent) or updates it (when present), shelling out to external commands and
aggregating per-source counters.

Strings are embedded as lists of characters (`Str`).  External effects
(`os.Stat`, `git clone`, `git config`, `touch`, the pack-file walk, `git
repack`, `git remote update`, `rm -rf`) are modelled by a per-repository
environment `RepoEnv` recording each command's outcome, and the driver
`processRepo` returns the terminal outcome, the ordered trace of external
actions invoked, and whether the local directory exists afterwards,
mirroring the control flow of `main` line by line.
-/

namespace GithubRepoMirror

/-- Strings, embedded as lists of characters. -/
abbrev Str := List Char

/-- Error values (the content of a Go `error`). -/
abbrev Err := Str

/-- The nested `owner` object of a repository (`Repo.Owner` in `main.go`). -/
structure Owner where
  Login : Str
deriving DecidableEq

/-- A remote repository as decoded from the API (`Repo` in `main.go`). -/
structure Repo where
  Name : Str
  FullName : Str
  Owner : Owner
  Private : Bool
deriving DecidableEq

/-- A configured source (`Source` in `main.go`). -/
structure Source where
  Username : Str
  Token : Str
  Organization : Bool
  Exclude : List Str
  Include : List Str
deriving DecidableEq

/-- `contains` from `main.go`: linear scan for exact string equality. -/
def contains (s : List Str) (e : Str) : Bool :=
  match s with
  | [] => false
  | v :: rest => if v = e then true else contains rest e

/-- `skip` from `main.go`: skip when the include list is non-empty and does
not contain the remote URL, or when the exclude list contains it. -/
def skip (source : Source) (remote : Str) : Bool :=
  if source.Include.length > 0 && !(contains source.Include remote) then
    true
  else if contains source.Exclude remote then
    true
  else
    false

theorem contains_eq_true_iff_mem (s : List Str) (e : Str) :
    contains s e = true ↔ e ∈ s := by
  induction s with
  | nil => simp [contains]
  | cons v rest ih =>
    by_cases h : v = e
    · subst h; simp [contains]
    · simp [contains, h, ih, Ne.symm h]

theorem contains_eq_decide (s : List Str) (e : Str) :
    contains s e = decide (e ∈ s) := by
  by_cases h : e ∈ s
  · rw [(contains_eq_true_iff_mem s e).2 h]; simp [h]
  · have h' : contains s e ≠ true := fun hc => h ((contains_eq_true_iff_mem s e).1 hc)
    rw [Bool.eq_false_iff.2 h']; simp [h]

theorem skip_eq_true_iff (source : Source) (remote : Str) :
    skip source remote = true ↔
      (source.Include ≠ [] ∧ remote ∉ source.Include) ∨
        remote ∈ source.Exclude := by
  simp only [skip, contains_eq_decide]
  by_cases hN : source.Include = [] <;>
    by_cases hI : remote ∈ source.Include <;>
      by_cases hE : remote ∈ source.Exclude <;>
        simp [hN, hI, hE, List.length_pos]

/-- A concrete source with include list `["A"]` and exclude list `["B"]`,
used to check the filter on the spec's example. -/
def srcAB : Source :=
  { Username := "u".data
    Token := "t".data
    Organization := false
    Exclude := ["B".data]
    Include := ["A".data] }

/-- Claim C2: the filter skips a repository iff the include list is non-empty
and does not contain the canonical remote URL, or the exclude list contains
it; on `include=["A"], exclude=["B"]`, URL `"A"` participates, `"B"` is
skipped, and any other URL is skipped because the include list is
non-empty. -/
theorem claim_C2 :
    (∀ (source : Source) (remote : Str),
        skip source remote = true ↔
          (source.Include ≠ [] ∧ remote ∉ source.Include) ∨
            remote ∈ source.Exclude) ∧
      skip srcAB "A".data = false ∧
      skip srcAB "B".data = true ∧
      (∀ u : Str, u ≠ "A".data → skip srcAB u = true) := by
  refine ⟨skip_eq_true_iff, by decide, by decide, ?_⟩
  intro u hu
  rw [skip_eq_true_iff]
  left
  refine ⟨by simp [srcAB], ?_⟩
  simp [srcAB, hu]

/-- Witness for C2: the filter applied at concrete inputs through the
theorem itself. -/
theorem claim_C2_witness : skip srcAB "C".data = true :=
  claim_C2.2.2.2 "C".data (by decide)

/-- The response of one page request of `getRepoPage`: the decoded
repository list paired with the Go error value (`none` when the request
succeeded; on failure `getRepoPage` returns `nil` and the error). -/
abbrev PageResp := List Repo × Option Err

/-- The requests `[(start, 100), (start + 1, 100), ...]` issued for `n`
consecutive pages at the fixed page size 100. -/
def pageRequests : Nat → Nat → List (Nat × Nat)
  | _, 0 => []
  | start, n + 1 => (start, 100) :: pageRequests (start + 1) n

/-- The loop of `getRepo` in `main.go`, with the remote API abstracted as
the list of responses it gives to the successive page requests (a page
beyond the list is empty, signalling the end of pages).  Returns the
accumulated repository list and the Go error exactly as `getRepo` does
(`return nil, err` discards pages already fetched), together with the list
of `(page, perPage)` requests issued. -/
def getRepoAux : Nat → List PageResp → (List Repo × Option Err) × List (Nat × Nat)
  | page, [] => (([], none), [(page, 100)])
  | page, (_, some e) :: _ => (([], some e), [(page, 100)])
  | page, ([], none) :: _ => (([], none), [(page, 100)])
  | page, (r :: rs, none) :: rest =>
    match getRepoAux (page + 1) rest with
    | ((tl, none), reqs) => (((r :: rs) ++ tl, none), (page, 100) :: reqs)
    | ((_, some e), reqs) => (([], some e), (page, 100) :: reqs)

/-- `getRepo` from `main.go`: page through the API starting at page 1 with
`perPage = 100`. -/
def getRepo (pages : List PageResp) :
    (List Repo × Option Err) × List (Nat × Nat) :=
  getRepoAux 1 pages

theorem getRepoAux_nil_of_err (pages : List PageResp) :
    ∀ (page : Nat) (e : Err), (getRepoAux page pages).1.2 = some e →
      (getRepoAux page pages).1.1 = [] := by
  induction pages with
  | nil => intro page e h; simp [getRepoAux] at h
  | cons p rest ih =>
    intro page e h
    obtain ⟨l, oe⟩ := p
    cases oe with
    | some e' => simp [getRepoAux]
    | none =>
      cases l with
      | nil => simp [getRepoAux] at h
      | cons r rs =>
        rcases h' : getRepoAux (page + 1) rest with ⟨⟨tl, oe'⟩, reqs⟩
        cases oe' with
        | none => simp [getRepoAux, h'] at h
        | some e'' => simp [getRepoAux, h']

theorem getRepoAux_stop (good rest : List PageResp) :
    ∀ page : Nat, (∀ p ∈ good, p.2 = none ∧ p.1 ≠ []) →
      getRepoAux page (good ++ ([], none) :: rest) =
        (((good.map Prod.fst).flatten, none), pageRequests page (good.length + 1)) := by
  induction good with
  | nil => intro page _; simp [getRepoAux, pageRequests]
  | cons p good' ih =>
    intro page h
    obtain ⟨h1, h2⟩ := h p (List.mem_cons_self p good')
    obtain ⟨l, oe⟩ := p
    simp only at h1 h2
    subst h1
    cases l with
    | nil => exact absurd rfl h2
    | cons r rs =>
      have ih' := ih (page + 1) (fun q hq => h q (List.mem_cons_of_mem _ hq))
      simp [getRepoAux, List.cons_append, ih', pageRequests]

theorem getRepoAux_err (good : List PageResp) (l : List Repo) (e : Err)
    (rest : List PageResp) :
    ∀ page : Nat, (∀ p ∈ good, p.2 = none ∧ p.1 ≠ []) →
      getRepoAux page (good ++ (l, some e) :: rest) =
        (([], some e), pageRequests page (good.length + 1)) := by
  induction good with
  | nil => intro page _; simp [getRepoAux, pageRequests]
  | cons p good' ih =>
    intro page h
    obtain ⟨h1, h2⟩ := h p (List.mem_cons_self p good')
    obtain ⟨l', oe⟩ := p
    simp only at h1 h2
    subst h1
    cases l' with
    | nil => exact absurd rfl h2
    | cons r rs =>
      have ih' := ih (page + 1) (fun q hq => h q (List.mem_cons_of_mem _ hq))
      simp [getRepoAux, List.cons_append, ih', pageRequests]

/-- A fixed repository value used to build synthetic page responses. -/
def dummyRepo : Repo :=
  { Name := "repo".data
    FullName := "owner/repo".data
    Owner := { Login := "owner".data }
    Private := false }

/-- Synthetic page responses of sizes 100, 100, 37, 0. -/
def pages237 : List PageResp :=
  [(List.replicate 100 dummyRepo, none), (List.replicate 100 dummyRepo, none),
   (List.replicate 37 dummyRepo, none), ([], none)]

/-- Claim C3: the lister requests pages at fixed size 100 from page 1
upwards, stops at the first empty page, and returns the concatenation of
the non-empty pages in order; on synthetic pages of sizes
`[100, 100, 37, 0]` it issues exactly 4 requests and returns 237
repositories. -/
theorem claim_C3 :
    (∀ good rest : List PageResp, (∀ p ∈ good, p.2 = none ∧ p.1 ≠ []) →
        getRepo (good ++ ([], none) :: rest) =
          (((good.map Prod.fst).flatten, none),
            pageRequests 1 (good.length + 1))) ∧
      (getRepo pages237).1.1.length = 237 ∧
      (getRepo pages237).2 = [(1, 100), (2, 100), (3, 100), (4, 100)] :=
  ⟨fun good rest h => getRepoAux_stop good rest 1 h, by rfl, by rfl⟩

/-- Witness for C3: the pagination theorem applied to one non-empty page
followed by an empty page. -/
theorem claim_C3_witness :
    (∀ p ∈ [([dummyRepo], (none : Option Err))], p.2 = none ∧ p.1 ≠ []) ∧
      getRepo ([([dummyRepo], none)] ++ ([], none) :: []) =
        ((([([dummyRepo], (none : Option Err))].map Prod.fst).flatten, none),
          pageRequests 1 2) :=
  ⟨by decide, claim_C3.1 [([dummyRepo], none)] [] (by decide)⟩

/-- Claim C10: if any page request fails, `getRepo` returns the error with
a nil repository list, discarding earlier pages; listing is
all-or-nothing. -/
theorem claim_C10 :
    (∀ (pages : List PageResp) (e : Err),
        (getRepo pages).1.2 = some e → (getRepo pages).1.1 = []) ∧
      (∀ (good : List PageResp) (l : List Repo) (e : Err)
          (rest : List PageResp),
          (∀ p ∈ good, p.2 = none ∧ p.1 ≠ []) →
          getRepo (good ++ (l, some e) :: rest) =
            (([], some e), pageRequests 1 (good.length + 1))) :=
  ⟨fun pages e h => getRepoAux_nil_of_err pages 1 e h,
    fun good l e rest h => getRepoAux_err good l e rest 1 h⟩

/-- Witness for C10: a failing second page yields the error, a nil list and
two issued requests. -/
theorem claim_C10_witness :
    (∀ p ∈ [([dummyRepo], (none : Option Err))], p.2 = none ∧ p.1 ≠ []) ∧
      getRepo ([([dummyRepo], none)] ++ ([dummyRepo], some "boom".data) :: []) =
        (([], some "boom".data), pageRequests 1 2) :=
  ⟨by decide,
    claim_C10.2 [([dummyRepo], none)] [dummyRepo] "boom".data [] (by decide)⟩

/-- `pat` is a leading segment of `s` (the test Go's `strings.Replace`
performs at each candidate position). -/
def hasPrefixList : Str → Str → Bool
  | _, [] => true
  | [], _ :: _ => false
  | c :: cs, p :: ps => c = p && hasPrefixList cs ps

/-- `strings.Replace(s, old, new, 1)` from the Go standard library:
replace the first occurrence of `old` in `s` by `new`. -/
def replaceFirst (s old new : Str) : Str :=
  match s with
  | [] => if old = [] then new else []
  | c :: cs =>
    if hasPrefixList (c :: cs) old then new ++ (c :: cs).drop old.length
    else c :: replaceFirst cs old new

theorem hasPrefixList_append (l r : Str) : hasPrefixList (l ++ r) l = true := by
  induction l with
  | nil => cases r <;> simp [hasPrefixList]
  | cons c cs ih => simp [hasPrefixList, ih]

theorem replaceFirst_append (old rest new : Str) :
    replaceFirst (old ++ rest) old new = new ++ rest := by
  cases old with
  | nil =>
    cases rest with
    | nil => simp [replaceFirst]
    | cons c cs => simp [replaceFirst, hasPrefixList]
  | cons p ps =>
    have h := hasPrefixList_append (p :: ps) rest
    simp only [List.cons_append] at h ⊢
    simp [replaceFirst, h, List.drop_left]

/-- The canonical remote URL `https://github.com/<full-name>.git` built at
line 66 of `main.go`. -/
def remoteOf (repo : Repo) : Str :=
  "https://github.com/".data ++ repo.FullName ++ ".git".data

/-- The transfer URL built at lines 79-82 of `main.go`: the remote URL,
with `username:token@` injected after the scheme when the repository is
private. -/
def transferURL (source : Source) (repo : Repo) : Str :=
  if repo.Private then
    replaceFirst (remoteOf repo) "https://".data
      ("https://".data ++ source.Username ++ ":".data ++ source.Token ++ "@".data)
  else remoteOf repo

/-- The result of `os.Stat local` at lines 72-78 of `main.go`: the path
exists, does not exist (`os.IsNotExist`), or the check fails for another
reason. -/
inductive StatRes
  | found
  | notFound
  | errOther
deriving DecidableEq

/-- Outcomes of the external commands invoked while processing one
repository.  The fields for the clone path and the update path overlap
(`disablegcOk` and `updateOk` serve whichever single path is taken).
`objectsRes` is `none` when the pack-file walk fails and otherwise carries
the largest `.pack` file size in bytes; `existsOnErr` records whether the
directory exists when the stat check itself errors. -/
structure RepoEnv where
  statRes : StatRes
  cloneOk : Bool
  disablegcOk : Bool
  touchOk : Bool
  objectsRes : Option Nat
  repackOk : Bool
  updateOk : Bool
  existsOnErr : Bool
deriving DecidableEq

/-- The terminal outcome for one repository: which counter of `Stat` the
iteration increments. -/
inductive Outcome
  | skipped
  | mirrored
  | updated
  | failed
  | failedMirror
  | failedUpdate
deriving DecidableEq

/-- External commands invoked while processing one repository, in order. -/
inductive Action
  | statCall
  | cloneCall (url : Str)
  | disablegcCall
  | touchCall
  | objectsCall
  | repackCall
  | updateCall
  | removeCall
deriving DecidableEq

/-- Whether the local directory exists before processing, as reflected by
the stat result. -/
def existsBefore (env : RepoEnv) : Bool :=
  match env.statRes with
  | .found => true
  | .notFound => false
  | .errOther => env.existsOnErr

/-- One iteration of the repository loop of `main` (lines 65-148): the
terminal outcome, the ordered trace of external commands invoked, and
whether the local directory exists afterwards.  `remove` runs `rm -rf`, so
after any clone-path failure the directory is gone; the update path never
removes. -/
def processRepo (source : Source) (env : RepoEnv) (repo : Repo) :
    Outcome × List Action × Bool :=
  let remote := remoteOf repo
  if skip source remote then
    (.skipped, [], existsBefore env)
  else
    match env.statRes with
    | .errOther => (.failed, [.statCall], env.existsOnErr)
    | .found =>
      if env.disablegcOk then
        if env.updateOk then
          (.updated, [.statCall, .disablegcCall, .updateCall], true)
        else
          (.failedUpdate, [.statCall, .disablegcCall, .updateCall], true)
      else
        (.failedUpdate, [.statCall, .disablegcCall], true)
    | .notFound =>
      let url := transferURL source repo
      if env.cloneOk then
        if env.disablegcOk then
          if env.touchOk then
            match env.objectsRes with
            | none =>
              (.failedMirror,
                [.statCall, .cloneCall url, .disablegcCall, .touchCall,
                  .objectsCall, .removeCall], false)
            | some largestsize =>
              if largestsize > 95 * 1024 * 1024 then
                if env.repackOk then
                  if env.updateOk then
                    (.mirrored,
                      [.statCall, .cloneCall url, .disablegcCall, .touchCall,
                        .objectsCall, .repackCall, .updateCall], true)
                  else
                    (.failedMirror,
                      [.statCall, .cloneCall url, .disablegcCall, .touchCall,
                        .objectsCall, .repackCall, .updateCall, .removeCall],
                      false)
                else
                  (.failedMirror,
                    [.statCall, .cloneCall url, .disablegcCall, .touchCall,
                      .objectsCall, .repackCall, .removeCall], false)
              else
                if env.updateOk then
                  (.mirrored,
                    [.statCall, .cloneCall url, .disablegcCall, .touchCall,
                      .objectsCall, .updateCall], true)
                else
                  (.failedMirror,
                    [.statCall, .cloneCall url, .disablegcCall, .touchCall,
                      .objectsCall, .updateCall, .removeCall], false)
          else
            (.failedMirror,
              [.statCall, .cloneCall url, .disablegcCall, .touchCall,
                .removeCall], false)
        else
          (.failedMirror,
            [.statCall, .cloneCall url, .disablegcCall, .removeCall], false)
      else
        (.failedMirror, [.statCall, .cloneCall url, .removeCall], false)

/-- The per-source counters (`Stat` in `main.go`; the `Source`
back-pointer is omitted). -/
structure Stat where
  Repos : List Repo
  Skipped : Nat
  Mirrored : Nat
  Updated : Nat
  Failed : Nat
  FailedMirror : Nat
  FailedUpdate : Nat
deriving DecidableEq

/-- The counter increment the loop body performs for an outcome. -/
def stepStat (s : Stat) : Outcome → Stat
  | .skipped => { s with Skipped := s.Skipped + 1 }
  | .mirrored => { s with Mirrored := s.Mirrored + 1 }
  | .updated => { s with Updated := s.Updated + 1 }
  | .failed => { s with Failed := s.Failed + 1 }
  | .failedMirror => { s with FailedMirror := s.FailedMirror + 1 }
  | .failedUpdate => { s with FailedUpdate := s.FailedUpdate + 1 }

/-- The six terminal counters of a `Stat`, indexed. -/
def counters (s : Stat) : Fin 6 → Nat
  | ⟨0, _⟩ => s.Skipped
  | ⟨1, _⟩ => s.Mirrored
  | ⟨2, _⟩ => s.Updated
  | ⟨3, _⟩ => s.Failed
  | ⟨4, _⟩ => s.FailedMirror
  | ⟨5, _⟩ => s.FailedUpdate

/-- The sum of the six terminal counters. -/
def totalCounters (s : Stat) : Nat :=
  s.Skipped + s.Mirrored + s.Updated + s.Failed + s.FailedMirror +
    s.FailedUpdate

/-- The repository loop of `main` over the listed repositories, each
paired with the outcomes of its external commands. -/
def runSourceAux (source : Source) (s : Stat) :
    List (Repo × RepoEnv) → Stat
  | [] => s
  | (repo, env) :: rest =>
    runSourceAux source (stepStat s (processRepo source env repo).1) rest

/-- A zero-counter `Stat` holding the repositories the lister returned. -/
def statInit (repos : List Repo) : Stat :=
  { Repos := repos, Skipped := 0, Mirrored := 0, Updated := 0, Failed := 0,
    FailedMirror := 0, FailedUpdate := 0 }

/-- Processing of one source in `main` (lines 54-149): the lister's
repositories are recorded in `Repos` and the loop runs over them. -/
def runSource (source : Source) (items : List (Repo × RepoEnv)) : Stat :=
  runSourceAux source (statInit (items.map Prod.fst)) items

theorem stepStat_Repos (s : Stat) (o : Outcome) :
    (stepStat s o).Repos = s.Repos := by
  cases o <;> rfl

theorem runSourceAux_Repos (source : Source)
    (items : List (Repo × RepoEnv)) :
    ∀ s : Stat, (runSourceAux source s items).Repos = s.Repos := by
  induction items with
  | nil => intro s; rfl
  | cons it rest ih =>
    intro s
    obtain ⟨repo, env⟩ := it
    rw [runSourceAux, ih, stepStat_Repos]

theorem totalCounters_stepStat (s : Stat) (o : Outcome) :
    totalCounters (stepStat s o) = totalCounters s + 1 := by
  cases o <;> simp [totalCounters, stepStat] <;> omega

theorem totalCounters_runSourceAux (source : Source)
    (items : List (Repo × RepoEnv)) :
    ∀ s : Stat,
      totalCounters (runSourceAux source s items) =
        totalCounters s + items.length := by
  induction items with
  | nil => intro s; simp [runSourceAux]
  | cons it rest ih =>
    intro s
    obtain ⟨repo, env⟩ := it
    rw [runSourceAux, ih, totalCounters_stepStat, List.length_cons]
    omega

theorem stepStat_exactly_one (s : Stat) (o : Outcome) :
    ∃ i : Fin 6, ∀ j : Fin 6,
      counters (stepStat s o) j = counters s j + (if j = i then 1 else 0) := by
  cases o with
  | skipped =>
    exact ⟨⟨0, by omega⟩, by intro j; fin_cases j <;> simp [stepStat, counters]⟩
  | mirrored =>
    exact ⟨⟨1, by omega⟩, by intro j; fin_cases j <;> simp [stepStat, counters]⟩
  | updated =>
    exact ⟨⟨2, by omega⟩, by intro j; fin_cases j <;> simp [stepStat, counters]⟩
  | failed =>
    exact ⟨⟨3, by omega⟩, by intro j; fin_cases j <;> simp [stepStat, counters]⟩
  | failedMirror =>
    exact ⟨⟨4, by omega⟩, by intro j; fin_cases j <;> simp [stepStat, counters]⟩
  | failedUpdate =>
    exact ⟨⟨5, by omega⟩, by intro j; fin_cases j <;> simp [stepStat, counters]⟩

/-- Claim C1: each loop iteration increments exactly one of the six
terminal counters, by exactly one; hence after the loop over a source's
repositories the counters sum to the number of repositories the lister
returned for that source. -/
theorem claim_C1 (source : Source) (items : List (Repo × RepoEnv)) :
    (∀ (s : Stat) (o : Outcome), ∃ i : Fin 6, ∀ j : Fin 6,
        counters (stepStat s o) j =
          counters s j + (if j = i then 1 else 0)) ∧
      (runSource source items).Repos = items.map Prod.fst ∧
      totalCounters (runSource source items) =
        (runSource source items).Repos.length := by
  refine ⟨stepStat_exactly_one, ?_, ?_⟩
  · rw [runSource, runSourceAux_Repos]; rfl
  · rw [runSource, totalCounters_runSourceAux, runSourceAux_Repos]
    simp [statInit, totalCounters]

/-- Claim C8: when the stat check fails for a reason other than not-found,
the generic failed counter is incremented exactly once and neither a clone
nor an update is attempted. -/
theorem claim_C8 (source : Source) (env : RepoEnv) (repo : Repo)
    (hskip : skip source (remoteOf repo) = false)
    (hstat : env.statRes = .errOther) :
    (processRepo source env repo).1 = .failed ∧
      (processRepo source env repo).2.1 = [.statCall] ∧
      (∀ s : Stat,
        (stepStat s .failed).Failed = s.Failed + 1 ∧
          (stepStat s .failed).Skipped = s.Skipped ∧
          (stepStat s .failed).Mirrored = s.Mirrored ∧
          (stepStat s .failed).Updated = s.Updated ∧
          (stepStat s .failed).FailedMirror = s.FailedMirror ∧
          (stepStat s .failed).FailedUpdate = s.FailedUpdate) := by
  refine ⟨?_, ?_, ?_⟩ <;> simp [processRepo, hskip, hstat, stepStat]

/-- A permissive source whose include and exclude lists are empty. -/
def srcOpen : Source :=
  { Username := "user".data
    Token := "tok".data
    Organization := false
    Exclude := []
    Include := [] }

/-- An environment where the directory is absent and every external
command succeeds, with an empty object store. -/
def envAllOk : RepoEnv :=
  { statRes := .notFound
    cloneOk := true
    disablegcOk := true
    touchOk := true
    objectsRes := some 0
    repackOk := true
    updateOk := true
    existsOnErr := false }

/-- Witness for C8: a failing stat on a permissive source yields the
generic failed outcome with only the stat call in the trace. -/
theorem claim_C8_witness :
    skip srcOpen (remoteOf dummyRepo) = false ∧
      (processRepo srcOpen { envAllOk with statRes := .errOther }
          dummyRepo).1 = .failed := by
  refine ⟨by decide, ?_⟩
  exact (claim_C8 srcOpen { envAllOk with statRes := .errOther } dummyRepo
    (by decide) rfl).1

/-- Claim C7: on the update path, a failure of either step increments the
failed-update counter exactly once and leaves the local directory intact:
no removal is performed. -/
theorem claim_C7 (source : Source) (env : RepoEnv) (repo : Repo)
    (hskip : skip source (remoteOf repo) = false)
    (hstat : env.statRes = .found)
    (hfail : env.disablegcOk = false ∨ env.updateOk = false) :
    (processRepo source env repo).1 = .failedUpdate ∧
      (processRepo source env repo).2.2 = true ∧
      Action.removeCall ∉ (processRepo source env repo).2.1 ∧
      (∀ s : Stat,
        (stepStat s .failedUpdate).FailedUpdate = s.FailedUpdate + 1 ∧
          (stepStat s .failedUpdate).Skipped = s.Skipped ∧
          (stepStat s .failedUpdate).Mirrored = s.Mirrored ∧
          (stepStat s .failedUpdate).Updated = s.Updated ∧
          (stepStat s .failedUpdate).Failed = s.Failed ∧
          (stepStat s .failedUpdate).FailedMirror = s.FailedMirror) := by
  cases hg : env.disablegcOk <;> cases hu : env.updateOk <;>
    simp_all [processRepo, stepStat]

/-- Witness for C7: a failing remote update on an existing mirror through
the theorem itself. -/
theorem claim_C7_witness :
    skip srcOpen (remoteOf dummyRepo) = false ∧
      (processRepo srcOpen
          { envAllOk with statRes := .found, updateOk := false }
          dummyRepo).1 = .failedUpdate := by
  refine ⟨by decide, ?_⟩
  exact (claim_C7 srcOpen
    { envAllOk with statRes := .found, updateOk := false } dummyRepo
    (by decide) rfl (Or.inr rfl)).1

/-- Whether some step of the clone path fails under the given
environment: the clone, the gc-config, the touch, the pack walk, the
repack when the threshold test triggers it, or the remote update. -/
def cloneFailureOccurs (env : RepoEnv) : Bool :=
  !env.cloneOk || !env.disablegcOk || !env.touchOk ||
    (match env.objectsRes with
     | none => true
     | some largestsize =>
       (decide (largestsize > 95 * 1024 * 1024) && !env.repackOk) ||
         !env.updateOk)

/-- Claim C6: on the clone path, if any step fails, the local directory is
removed (it no longer exists afterwards), the failed-mirror counter is
incremented exactly once, and the loop moves on to the next repository. -/
theorem claim_C6 (source : Source) (env : RepoEnv) (repo : Repo)
    (hskip : skip source (remoteOf repo) = false)
    (hstat : env.statRes = .notFound)
    (hfail : cloneFailureOccurs env = true) :
    (processRepo source env repo).1 = .failedMirror ∧
      (processRepo source env repo).2.2 = false ∧
      Action.removeCall ∈ (processRepo source env repo).2.1 ∧
      (∀ s : Stat,
        (stepStat s .failedMirror).FailedMirror = s.FailedMirror + 1 ∧
          (stepStat s .failedMirror).Skipped = s.Skipped ∧
          (stepStat s .failedMirror).Mirrored = s.Mirrored ∧
          (stepStat s .failedMirror).Updated = s.Updated ∧
          (stepStat s .failedMirror).Failed = s.Failed ∧
          (stepStat s .failedMirror).FailedUpdate = s.FailedUpdate) ∧
      (∀ (rest : List (Repo × RepoEnv)) (s : Stat),
        runSourceAux source s ((repo, env) :: rest) =
          runSourceAux source (stepStat s .failedMirror) rest) := by
  have hout : (processRepo source env repo).1 = .failedMirror ∧
      (processRepo source env repo).2.2 = false ∧
      Action.removeCall ∈ (processRepo source env repo).2.1 := by
    rcases ho : env.objectsRes with _ | sz
    · cases hc : env.cloneOk <;> cases hg : env.disablegcOk <;>
        cases ht : env.touchOk <;> cases hu : env.updateOk <;>
          simp_all [processRepo, cloneFailureOccurs]
    · by_cases hsz : 99614720 < sz
      · cases hc : env.cloneOk <;> cases hg : env.disablegcOk <;>
          cases ht : env.touchOk <;> cases hr : env.repackOk <;>
            cases hu : env.updateOk <;>
              simp_all [processRepo, cloneFailureOccurs, eq_true hsz]
      · cases hc : env.cloneOk <;> cases hg : env.disablegcOk <;>
          cases ht : env.touchOk <;> cases hr : env.repackOk <;>
            cases hu : env.updateOk <;>
              simp_all [processRepo, cloneFailureOccurs, eq_false hsz] <;>
                simp only [if_neg (show ¬ (99614720 < sz) by omega)] <;> simp
  refine ⟨hout.1, hout.2.1, hout.2.2, ?_, ?_⟩
  · intro s; simp [stepStat]
  · intro rest s
    rw [runSourceAux, hout.1]

/-- Witness for C6: a failing clone on a permissive source through the
theorem itself. -/
theorem claim_C6_witness :
    cloneFailureOccurs { envAllOk with cloneOk := false } = true ∧
      (processRepo srcOpen { envAllOk with cloneOk := false }
          dummyRepo).2.2 = false := by
  refine ⟨by decide, ?_⟩
  exact (claim_C6 srcOpen { envAllOk with cloneOk := false } dummyRepo
    (by decide) rfl (by decide)).2.1

/-- Claim C9 (clone-path transfer URL): the clone is invoked with the
canonical remote URL, and with `username:token@` injected into the
authority when the repository is private. -/
theorem claim_C9 (source : Source) (env : RepoEnv) (repo : Repo)
    (hskip : skip source (remoteOf repo) = false)
    (hstat : env.statRes = .notFound) :
    Action.cloneCall (transferURL source repo) ∈
        (processRepo source env repo).2.1 ∧
      (repo.Private = false → transferURL source repo =
        "https://github.com/".data ++ repo.FullName ++ ".git".data) ∧
      (repo.Private = true → transferURL source repo =
        "https://".data ++ source.Username ++ ":".data ++ source.Token ++
          "@".data ++ "github.com/".data ++ repo.FullName ++ ".git".data) := by
  refine ⟨?_, ?_, ?_⟩
  · rcases ho : env.objectsRes with _ | sz
    · cases hc : env.cloneOk <;> cases hg : env.disablegcOk <;>
        cases ht : env.touchOk <;> cases hu : env.updateOk <;>
          simp_all [processRepo]
    · by_cases hsz : 99614720 < sz
      · cases hc : env.cloneOk <;> cases hg : env.disablegcOk <;>
          cases ht : env.touchOk <;> cases hr : env.repackOk <;>
            cases hu : env.updateOk <;>
              simp_all [processRepo, eq_true hsz]
      · cases hc : env.cloneOk <;> cases hg : env.disablegcOk <;>
          cases ht : env.touchOk <;> cases hr : env.repackOk <;>
            cases hu : env.updateOk <;>
              simp_all [processRepo, eq_false hsz] <;>
                simp only [if_neg (show ¬ (99614720 < sz) by omega)] <;> simp
  · intro h; simp [transferURL, h, remoteOf]
  · intro h
    have h1 : transferURL source repo =
        replaceFirst (remoteOf repo) "https://".data
          ("https://".data ++ source.Username ++ ":".data ++ source.Token ++
            "@".data) := by
      simp [transferURL, h]
    have h2 : remoteOf repo =
        "https://".data ++
          ("github.com/".data ++ repo.FullName ++ ".git".data) := by
      simp [remoteOf]
    rw [h1, h2, replaceFirst_append]
    simp [List.append_assoc]

/-- A private repository used as concrete input. -/
def repoPriv : Repo :=
  { Name := "p".data
    FullName := "owner/p".data
    Owner := { Login := "owner".data }
    Private := true }

/-- Witness for C9: the transfer URL of a concrete private repository
through the theorem itself. -/
theorem claim_C9_witness :
    skip srcOpen (remoteOf repoPriv) = false ∧
      transferURL srcOpen repoPriv =
        "https://".data ++ srcOpen.Username ++ ":".data ++ srcOpen.Token ++
          "@".data ++ "github.com/".data ++ repoPriv.FullName ++
            ".git".data := by
  refine ⟨by decide, ?_⟩
  exact (claim_C9 srcOpen envAllOk repoPriv (by decide) rfl).2.2 rfl

/-- Counterexample to C4 as stated: with the largest pack file exactly at
95 MiB (at the claimed threshold, so the claim predicts a repack), the
code performs no repack invocation, because line 112 of `main.go` tests
strict inequality. -/
theorem claim_C4_counterexample :
    95 * 1024 * 1024 ≥ 95 * 1024 * 1024 ∧
      Action.repackCall ∉
        (processRepo srcOpen
          { envAllOk with objectsRes := some (95 * 1024 * 1024) }
          dummyRepo).2.1 := by
  refine ⟨le_refl _, ?_⟩
  decide

/-- Claim C4 (amended: strictly above the threshold): on the clone path,
once the pack scan succeeds, a repack is invoked iff the scanned largest
pack size is strictly greater than 95 MiB. -/
theorem claim_C4 (source : Source) (env : RepoEnv) (repo : Repo) (sz : Nat)
    (hskip : skip source (remoteOf repo) = false)
    (hstat : env.statRes = .notFound)
    (hclone : env.cloneOk = true) (hgc : env.disablegcOk = true)
    (htouch : env.touchOk = true) (hobj : env.objectsRes = some sz) :
    Action.repackCall ∈ (processRepo source env repo).2.1 ↔
      sz > 95 * 1024 * 1024 := by
  by_cases hsz : 99614720 < sz
  · cases hr : env.repackOk <;> cases hu : env.updateOk <;>
      simp_all [processRepo, eq_true hsz]
  · cases hr : env.repackOk <;> cases hu : env.updateOk <;>
      simp_all [processRepo, eq_false hsz] <;>
        simp only [if_neg (show ¬ (99614720 < sz) by omega)] <;>
          simp <;> omega

/-- Witness for C4: a pack one byte above the threshold triggers the
repack, through the theorem itself. -/
theorem claim_C4_witness :
    95 * 1024 * 1024 + 1 > 95 * 1024 * 1024 ∧
      Action.repackCall ∈
        (processRepo srcOpen
          { envAllOk with objectsRes := some (95 * 1024 * 1024 + 1) }
          dummyRepo).2.1 := by
  refine ⟨by omega, ?_⟩
  exact (claim_C4 srcOpen
    { envAllOk with objectsRes := some (95 * 1024 * 1024 + 1) }
    dummyRepo (95 * 1024 * 1024 + 1) (by decide) rfl rfl rfl rfl rfl).2
    (by omega)

/-- Modelled from the spec: the richer variant's configurable
`MaxPackSize` is missing from `src/main.go` (whose `Config` carries only
`Sources` and `Destination`, and whose `repack` hardcodes
`--max-pack-size=95m`); per the spec, the configured value is floored at
1 MiB when a smaller value is configured. -/
def effectiveMaxPackSize (maxPackSize : Nat) : Nat :=
  if maxPackSize < 1024 * 1024 then 1024 * 1024 else maxPackSize

/-- Claim C5: a configured MaxPackSize below 1 MiB yields a repack
threshold of exactly 1 MiB. -/
theorem claim_C5 (m : Nat) (h : m < 1024 * 1024) :
    effectiveMaxPackSize m = 1024 * 1024 := by
  simp [effectiveMaxPackSize, h]

/-- Witness for C5: a configured value of half a MiB is floored to 1 MiB,
through the theorem itself. -/
theorem claim_C5_witness :
    512 * 1024 < 1024 * 1024 ∧
      effectiveMaxPackSize (512 * 1024) = 1024 * 1024 :=
  ⟨by omega, claim_C5 (512 * 1024) (by omega)⟩

end GithubRepoMirror
